import Mathlib

/-!
Shallow embedding of the barcode pipeline (src/app.py, src/main.py).

The program is a thin glue script over OpenCV:
  - `BarcodeDetector.preprocess_image` (app.py:8-20): `cv2.imread(path,
    IMREAD_GRAYSCALE)`, then `cv2.GaussianBlur(im, (5,5), 0)`, then
    `cv2.threshold(blur, 0, 255, THRESH_BINARY + THRESH_OTSU)`.
  - `BarcodeDetector.extract_barcode` (app.py:29-35): numpy slicing
    `image[y:y+h, x:x+w]`.
  - `BarcodeDecoder.decode_barcode` (app.py:51-63): reads the image,
    preprocesses, shows a preview, then calls the free name `decode`,
    which is bound nowhere in the module - Python raises `NameError`.
  - `main` (main.py:3-18): hard-codes the path, calls `decode_barcode`,
    prints either the data/type pair or a not-found message depending on
    the truthiness of the returned data.

Grayscale images are 2D grids of 8-bit intensities; we embed them as
`List (List Nat)`. External library calls are embedded by their documented
semantics: `cv2.imread` is an abstract `String → Option Image` parameter
(`none` = unreadable path, cv2.imread returns None without raising);
`cv2.GaussianBlur` with ksize (5,5) and sigma 0 uses OpenCV's fixed small
kernel [1,4,6,4,1]/16 separably with BORDER_REFLECT_101, embedded here as
an exact fixed-point convolution; `cv2.threshold` with THRESH_OTSU computes
the Otsu threshold by OpenCV's histogram scan (embedded over exact
rationals in place of C doubles, with the FLT_EPSILON guard idealised to
an exact zero test) and then maps each pixel p to (p > t ? 255 : 0).
Failure is embedded with `Except`: an uncaught Python exception is an
`Except.error` value that no caller handles.
-/

/-- A grayscale image: rows of pixel intensities. -/
abbrev Image := List (List Nat)

/-- Width of an image: the length of its first row (cv2 images are
rectangular). -/
def width (img : Image) : Nat := (img.headD []).length

/-- All rows have the common width (every cv2 `Mat` satisfies this). -/
def Rectangular (img : Image) : Prop := ∀ row ∈ img, row.length = width img

/-- Pixel access with an out-of-range default. -/
def pix (img : Image) (i j : Nat) : Nat := (img.getD i []).getD j 0

/-- OpenCV's fixed Gaussian tap values for ksize 5 with sigma ≤ 0:
[1,4,6,4,1] / 16 (`small_gaussian_tab` in smooth.cpp). -/
def gk5 (i : Nat) : Nat := [1, 4, 6, 4, 1].getD i 0

/-- One reflection step of `cv::borderInterpolate` for BORDER_REFLECT_101. -/
def reflect101Once (n : Nat) (p : Int) : Int :=
  if p < 0 then -p else if (n : Int) ≤ p then 2 * ((n : Int) - 1) - p else p

/-- BORDER_REFLECT_101 coordinate for offsets of magnitude at most the
kernel radius; clamped into range so the embedding is total. -/
def reflect101 (n : Nat) (p : Int) : Nat :=
  if n ≤ 1 then 0 else min (reflect101Once n (reflect101Once n p)).toNat (n - 1)

/-- The blurred intensity at (i, j): 5×5 weighted sum over the
reflection-padded image, in /256 fixed point with round-to-nearest. -/
def blurAt (img : Image) (hgt wdt i j : Nat) : Nat :=
  (((List.range 5).map fun di =>
      ((List.range 5).map fun dj =>
        gk5 di * gk5 dj *
          pix img (reflect101 hgt ((i : Int) + (di : Int) - 2))
            (reflect101 wdt ((j : Int) + (dj : Int) - 2))).sum).sum + 128) / 256

/-- `cv2.GaussianBlur(im, (5, 5), 0)` (app.py:15): dimensions are
preserved, each output pixel is the kernel-weighted neighbourhood sum. -/
def gaussianBlur5 (img : Image) : Image :=
  (List.range img.length).map fun i =>
    (List.range (width img)).map fun j => blurAt img img.length (width img) i j

/-- Intensity histogram of a pixel list: `hist l v` counts pixels equal
to `v`. -/
def hist : List Nat → Nat → Nat
  | [], _ => 0
  | p :: l, v => (if p = v then 1 else 0) + hist l v

/-- Loop state of OpenCV's `getThreshVal_Otsu_8u` scan (thresh.cpp):
first-class mass `q1`, first-class mean `mu1`, best between-class variance
so far and its argument. -/
structure OtsuState where
  q1 : ℚ
  mu1 : ℚ
  maxSigma : ℚ
  maxVal : Nat

/-- One iteration of the Otsu scan at candidate threshold `i`, following
OpenCV: `mu1 *= q1; q1 += p_i;` then skip when a class is empty
(FLT_EPSILON guard, idealised to ≤ 0 over exact rationals), else compute
the class means and between-class variance `sigma` and keep the strictly
larger one. -/
def otsuStep (mu scale : ℚ) (h : Nat → Nat) (s : OtsuState) (i : Nat) : OtsuState :=
  let p : ℚ := (h i : ℚ) * scale
  let m1 : ℚ := s.mu1 * s.q1
  let q1 : ℚ := s.q1 + p
  let q2 : ℚ := 1 - q1
  if q1 ≤ 0 ∨ q2 ≤ 0 then ⟨q1, m1, s.maxSigma, s.maxVal⟩
  else
    let mu1 : ℚ := (m1 + (i : ℚ) * p) / q1
    let mu2 : ℚ := (mu - q1 * mu1) / q2
    let sigma : ℚ := q1 * q2 * (mu1 - mu2) ^ 2
    if s.maxSigma < sigma then ⟨q1, mu1, sigma, i⟩ else ⟨q1, mu1, s.maxSigma, s.maxVal⟩

/-- The automatically selected Otsu threshold of an image: the scan of
`getThreshVal_Otsu_8u` over candidate thresholds 0..255, started from the
zero state. -/
def otsuThreshold (img : Image) : Nat :=
  let pxs := img.flatten
  let scale : ℚ := 1 / (pxs.length : ℚ)
  let mu : ℚ := (∑ i ∈ Finset.range 256, (i : ℚ) * (hist pxs i : ℚ)) * scale
  ((List.range 256).foldl (otsuStep mu scale (hist pxs)) ⟨0, 0, 0, 0⟩).maxVal

/-- `cv2.threshold(img, 0, 255, THRESH_BINARY + THRESH_OTSU)` (app.py:18):
the threshold value is chosen by Otsu (the passed 0 is ignored), then each
pixel maps to 255 when strictly above it and to 0 otherwise. -/
def cvThresholdBinaryOtsu (img : Image) : Image :=
  let t := otsuThreshold img
  img.map fun row => row.map fun p => if t < p then 255 else 0

/-- An uncaught Python exception, as a value: `NameError` for an unbound
name, `cv2.error` for a failed OpenCV call. -/
inductive PyError where
  | nameError : String → PyError
  | cvError : PyError
  deriving DecidableEq

/-- The names bound at module scope in app.py when `decode_barcode` runs:
the two imports (app.py:1-2) and the two class statements (app.py:4, 46). -/
def appGlobals : List String := ["cv2", "np", "BarcodeDetector", "BarcodeDecoder"]

/-- Python global-name resolution: a free name not bound in the module
scope raises `NameError`. -/
def lookupGlobal (g : List String) (n : String) : Except PyError Unit :=
  if n ∈ g then Except.ok () else Except.error (PyError.nameError n)

/-- `BarcodeDetector.preprocess_image` (app.py:8-20): grayscale imread,
Gaussian blur, Otsu binary threshold. When the path is unreadable,
`cv2.imread` returns None and the subsequent `cv2.GaussianBlur(None, ...)`
raises `cv2.error`. -/
def preprocess_image (imread : String → Option Image) (path : String) :
    Except PyError Image :=
  match imread path with
  | none => Except.error PyError.cvError
  | some im => Except.ok (cvThresholdBinaryOtsu (gaussianBlur5 im))

/-- One result of the external decoder: a decoded payload (`.data`,
already utf-8 decoded) and a symbology tag (`.type`). -/
structure DecodedBarcode where
  data : String
  type : String
  deriving DecidableEq

/-- app.py:57-63: `if barcodes:` then the `for` loop returns the first
(data, type) pair on its first iteration; otherwise `(None, None)`. -/
def firstDecoded : List DecodedBarcode → Option String × Option String
  | [] => (none, none)
  | b :: _ => (some b.data, some b.type)

/-- `BarcodeDecoder.decode_barcode` (app.py:51-63). `decodeFn` stands for
whatever the free name `decode` would denote if it were bound; the name
resolution of `decode` at app.py:55 is embedded explicitly, after the
preprocessing (app.py:52-53) and the preview display (app.py:54, a
blocking side effect that returns normally). -/
def decode_barcode (imread : String → Option Image)
    (decodeFn : Image → List DecodedBarcode) (path : String) :
    Except PyError (Option String × Option String) :=
  match preprocess_image imread path with
  | Except.error e => Except.error e
  | Except.ok pre =>
    match lookupGlobal appGlobals "decode" with
    | Except.error e => Except.error e
    | Except.ok _ => Except.ok (firstDecoded (decodeFn pre))

/-- `BarcodeDetector.extract_barcode` (app.py:29-35): numpy slicing
`image[y:y+h, x:x+w]` for a nonnegative rectangle - rows y..y+h, columns
x..x+w, truncated silently at the array edges. -/
def extract_barcode (image : Image) (x y w h : Nat) : Image :=
  ((image.drop y).take h).map fun row => (row.drop x).take w

/-- How Python prints a value: `None` prints as "None", a string as
itself. -/
def pyStr : Option String → String
  | none => "None"
  | some s => s

/-- Python truthiness of `barcode_data`: `None` and the empty string are
falsy, every other string is truthy (main.py:14). -/
def pyTruthy : Option String → Bool
  | none => false
  | some s => decide (s ≠ "")

/-- main.py:13-18: the lines printed from the returned (data, type) pair -
the data and type when `barcode_data` is truthy, the not-found message
otherwise. -/
def reportResult (r : Option String × Option String) : List String :=
  if pyTruthy r.1 then
    ["Barcode Data: " ++ pyStr r.1, "Barcode Type: " ++ pyStr r.2]
  else
    ["No barcode detected or decoded."]

/-- main.py:8: the image path, a hard-coded literal. `args` and `env`
stand for the process command line and environment, which main.py never
reads. -/
def imagePath (_args : List String) (_env : String → Option String) : String :=
  "your_image_path.jpg"

/-- `main` (main.py:3-18): decode the hard-coded path and print the
result. There is no try/except anywhere, so any error from
`decode_barcode` propagates uncaught and nothing is printed. (Named
`pyMain` because Lean reserves `main` for executable entry points.) -/
def pyMain (imread : String → Option Image)
    (decodeFn : Image → List DecodedBarcode)
    (args : List String) (env : String → Option String) :
    Except PyError (List String) :=
  match decode_barcode imread decodeFn (imagePath args env) with
  | Except.error e => Except.error e
  | Except.ok r => Except.ok (reportResult r)

/-! ## General helper lemmas -/

/-- A map whose function fixes every element of the list is the identity. -/
theorem list_map_eq_self {α : Type} (f : α → α) :
    ∀ l : List α, (∀ x ∈ l, f x = x) → l.map f = l
  | [], _ => rfl
  | x :: l, hfix => by
    rw [List.map_cons, hfix x (List.mem_cons_self x l),
      list_map_eq_self f l fun y hy => hfix y (List.mem_cons_of_mem x hy)]

/-- Shared fact: whenever the grayscale read succeeds, `decode_barcode`
reaches app.py:55 and the free name `decode` fails to resolve. -/
theorem decodeBarcode_nameError_of_readable (imread : String → Option Image)
    (decodeFn : Image → List DecodedBarcode) (path : String) (im : Image)
    (hre : imread path = some im) :
    decode_barcode imread decodeFn path
      = Except.error (PyError.nameError "decode") := by
  unfold decode_barcode preprocess_image
  rw [hre]
  rfl

/-! ## Claim theorems (easy group) -/

/-- C3: `decode_barcode` invokes the unbound name `decode` at its decoding
step: for every image path for which preprocessing (a successful grayscale
read) and the preview display succeed, it raises `NameError` and never
reaches its return statements. -/
theorem decode_barcode_raises_nameError (imread : String → Option Image)
    (decodeFn : Image → List DecodedBarcode) (path : String) (im : Image)
    (hre : imread path = some im) :
    decode_barcode imread decodeFn path
      = Except.error (PyError.nameError "decode") :=
  decodeBarcode_nameError_of_readable imread decodeFn path im hre

/-- Witness for C3 at a concrete readable path. -/
theorem decode_barcode_raises_nameError_witness :
    decode_barcode (fun _ => some [[0]]) (fun _ => []) "p"
      = Except.error (PyError.nameError "decode") :=
  decode_barcode_raises_nameError (fun _ => some [[0]]) (fun _ => []) "p" [[0]] rfl

/-- C1 (code bug): on a readable image whose single barcode has known
payload "HELLO" of symbology "QRCODE", `decode_barcode` does not return
that pair - it raises `NameError` for the unbound name `decode`. -/
theorem decode_barcode_known_payload_not_returned :
    decode_barcode (fun _ => some [[0, 255], [255, 0]])
        (fun _ => [⟨"HELLO", "QRCODE"⟩]) "barcode.jpg"
      = Except.error (PyError.nameError "decode") :=
  decodeBarcode_nameError_of_readable _ _ _ _ rfl

/-- C2 (code bug): `decode_barcode` neither returns `(None, None)` on an
image with no barcodes nor the first pair on an image with several - in
both cases it raises `NameError` before any return statement. -/
theorem decode_barcode_never_returns_pair :
    decode_barcode (fun _ => some [[7]]) (fun _ => []) "empty.jpg"
        = Except.error (PyError.nameError "decode") ∧
    decode_barcode (fun _ => some [[7]])
        (fun _ => [⟨"A", "EAN13"⟩, ⟨"B", "CODE128"⟩]) "multi.jpg"
      = Except.error (PyError.nameError "decode") :=
  ⟨decodeBarcode_nameError_of_readable _ _ _ _ rfl,
   decodeBarcode_nameError_of_readable _ _ _ _ rfl⟩

/-- C6: for an in-bounds rectangle (x+w ≤ W, y+h ≤ H) on a rectangular
image, `extract_barcode` returns exactly h rows of exactly w columns. -/
theorem extract_barcode_inbounds_dims (image : Image) (x y w h : Nat)
    (hrect : Rectangular image) (hx : x + w ≤ width image)
    (hy : y + h ≤ image.length) :
    (extract_barcode image x y w h).length = h ∧
      ∀ row ∈ extract_barcode image x y w h, row.length = w := by
  constructor
  · simp only [extract_barcode, List.length_map, List.length_take,
      List.length_drop]
    omega
  · intro row hrow
    simp only [extract_barcode, List.mem_map] at hrow
    obtain ⟨r, hr, rfl⟩ := hrow
    have hrim : r ∈ image := List.drop_subset _ _ (List.take_subset _ _ hr)
    have hw := hrect r hrim
    simp only [List.length_take, List.length_drop, hw]
    omega

/-- Witness for C6 on a concrete 3×3 image and the rectangle
(x, y, w, h) = (1, 0, 2, 2). -/
theorem extract_barcode_inbounds_dims_witness :
    (extract_barcode [[1, 2, 3], [4, 5, 6], [7, 8, 9]] 1 0 2 2).length = 2 ∧
      ∀ row ∈ extract_barcode [[1, 2, 3], [4, 5, 6], [7, 8, 9]] 1 0 2 2,
        row.length = 2 :=
  extract_barcode_inbounds_dims [[1, 2, 3], [4, 5, 6], [7, 8, 9]] 1 0 2 2
    (by unfold Rectangular; decide) (by decide) (by decide)

/-- C10: for any rectangle whose origin lies inside a rectangular image
(x ≤ W, y ≤ H; w and h arbitrary), `extract_barcode` raises nothing and
returns min h (H−y) rows of min w (W−x) columns, truncating silently. -/
theorem extract_barcode_truncates (image : Image) (x y w h : Nat)
    (hrect : Rectangular image) (_hx : x ≤ width image)
    (_hy : y ≤ image.length) :
    (extract_barcode image x y w h).length = min h (image.length - y) ∧
      ∀ row ∈ extract_barcode image x y w h,
        row.length = min w (width image - x) := by
  constructor
  · simp only [extract_barcode, List.length_map, List.length_take,
      List.length_drop]
  · intro row hrow
    simp only [extract_barcode, List.mem_map] at hrow
    obtain ⟨r, hr, rfl⟩ := hrow
    have hrim : r ∈ image := List.drop_subset _ _ (List.take_subset _ _ hr)
    have hw := hrect r hrim
    simp only [List.length_take, List.length_drop, hw]

/-- Witness for C10 with an overlong rectangle (w, h) = (5, 9) at
(x, y) = (1, 1) on a 3×3 image: 2 rows of 2 columns survive. -/
theorem extract_barcode_truncates_witness :
    (extract_barcode [[1, 2, 3], [4, 5, 6], [7, 8, 9]] 1 1 5 9).length
        = min 9 (([[1, 2, 3], [4, 5, 6], [7, 8, 9]] : Image).length - 1) ∧
      ∀ row ∈ extract_barcode [[1, 2, 3], [4, 5, 6], [7, 8, 9]] 1 1 5 9,
        row.length = min 5 (width [[1, 2, 3], [4, 5, 6], [7, 8, 9]] - 1) :=
  extract_barcode_truncates [[1, 2, 3], [4, 5, 6], [7, 8, 9]] 1 1 5 9
    (by unfold Rectangular; decide) (by decide) (by decide)

/-- C7: the only handled error condition is absence of a decoded barcode,
reported by the printed not-found message; an unreadable image path makes
`decode_barcode` (and hence the whole run of main) end in an uncaught
`cv2.error`, returning no value and printing nothing. -/
theorem unreadable_path_uncaught_error (imread : String → Option Image)
    (decodeFn : Image → List DecodedBarcode) (path : String)
    (args : List String) (env : String → Option String)
    (h1 : imread path = none)
    (h2 : imread "your_image_path.jpg" = none) :
    decode_barcode imread decodeFn path = Except.error PyError.cvError ∧
    pyMain imread decodeFn args env = Except.error PyError.cvError ∧
    reportResult (none, none) = ["No barcode detected or decoded."] := by
  refine ⟨?_, ?_, rfl⟩
  · unfold decode_barcode preprocess_image
    rw [h1]
  · unfold pyMain decode_barcode preprocess_image imagePath
    rw [h2]

/-- Witness for C7: a reader under which no path is readable. -/
theorem unreadable_path_uncaught_error_witness :
    decode_barcode (fun _ => none) (fun _ => []) "missing.jpg"
        = Except.error PyError.cvError ∧
    pyMain (fun _ => none) (fun _ => []) [] (fun _ => none)
        = Except.error PyError.cvError ∧
    reportResult (none, none) = ["No barcode detected or decoded."] :=
  unreadable_path_uncaught_error (fun _ => none) (fun _ => []) "missing.jpg"
    [] (fun _ => none) rfl rfl

/-- C8: the image path main passes to `decode_barcode` is the constant
"your_image_path.jpg", independent of command-line arguments and
environment; consequently main's whole behaviour is unchanged across runs
that differ only in arguments or environment. -/
theorem image_path_constant (imread : String → Option Image)
    (decodeFn : Image → List DecodedBarcode)
    (a₁ a₂ : List String) (e₁ e₂ : String → Option String) :
    imagePath a₁ e₁ = "your_image_path.jpg" ∧
    imagePath a₁ e₁ = imagePath a₂ e₂ ∧
    pyMain imread decodeFn a₁ e₁ = pyMain imread decodeFn a₂ e₂ :=
  ⟨rfl, rfl, rfl⟩

/-- C9: main branches on the truthiness of the returned data, not on its
absence: any falsy data value - `None` or the empty string, even with a
present type - makes main print the not-found message. -/
theorem falsy_data_prints_not_found (data btype : Option String)
    (hf : pyTruthy data = false) :
    reportResult (data, btype) = ["No barcode detected or decoded."] := by
  simp [reportResult, hf]

/-- Witness for C9: a successfully decoded empty payload with a present
type is reported as not found. -/
theorem falsy_data_prints_not_found_witness :
    pyTruthy (some "") = false ∧
    reportResult (some "", some "QRCODE")
      = ["No barcode detected or decoded."] :=
  ⟨rfl, falsy_data_prints_not_found (some "") (some "QRCODE") rfl⟩

/-! ## The Otsu scan: helper lemmas for C4 and C5 -/

/-- Both branches of the scan step accumulate the class mass the same
way: `q1 += h[i] * scale`. -/
theorem otsuStep_q1 (mu scale : ℚ) (h : Nat → Nat) (s : OtsuState) (i : Nat) :
    (otsuStep mu scale h s i).q1 = s.q1 + (h i : ℚ) * scale := by
  simp only [otsuStep]
  split_ifs <;> rfl

/-- A scan step either keeps the best argument or replaces it by the
current candidate. -/
theorem otsuStep_maxVal (mu scale : ℚ) (h : Nat → Nat) (s : OtsuState) (i : Nat) :
    (otsuStep mu scale h s i).maxVal = s.maxVal
      ∨ (otsuStep mu scale h s i).maxVal = i := by
  simp only [otsuStep]
  split_ifs <;> simp

/-- A step whose updated class mass is degenerate (empty foreground or
empty background) takes the skip branch and keeps the best argument. -/
theorem otsuStep_skip (mu scale : ℚ) (h : Nat → Nat) (s : OtsuState) (i : Nat)
    (hc : s.q1 + (h i : ℚ) * scale ≤ 0 ∨ 1 - (s.q1 + (h i : ℚ) * scale) ≤ 0) :
    (otsuStep mu scale h s i).maxVal = s.maxVal := by
  simp only [otsuStep]
  rw [if_pos hc]

/-- Scanning candidates that are all at most 254 cannot push the best
argument above 254. -/
theorem foldl_otsuStep_maxVal_le (mu scale : ℚ) (h : Nat → Nat) :
    ∀ (l : List Nat) (s : OtsuState), (∀ j ∈ l, j ≤ 254) → s.maxVal ≤ 254 →
      (l.foldl (otsuStep mu scale h) s).maxVal ≤ 254
  | [], _, _, hs => hs
  | j :: l, s, hl, hs => by
    rw [List.foldl_cons]
    refine foldl_otsuStep_maxVal_le mu scale h l _
      (fun k hk => hl k (List.mem_cons_of_mem j hk)) ?_
    rcases otsuStep_maxVal mu scale h s j with he | he
    · omega
    · have := hl j (List.mem_cons_self j l)
      omega

/-- The class mass after scanning candidates 0..n-1 is the scaled mass of
the histogram below n. -/
theorem foldl_otsuStep_q1 (mu scale : ℚ) (h : Nat → Nat) :
    ∀ (n : Nat) (s : OtsuState),
      (((List.range n).foldl (otsuStep mu scale h) s)).q1
        = s.q1 + (∑ i ∈ Finset.range n, (h i : ℚ)) * scale
  | 0, s => by simp
  | n + 1, s => by
    rw [List.range_succ, List.foldl_append, List.foldl_cons, List.foldl_nil,
      otsuStep_q1, foldl_otsuStep_q1 mu scale h n s, Finset.sum_range_succ]
    ring

/-- The full Otsu scan started from the zero state returns a threshold of
at most 254 whenever the total scaled histogram mass is 0 or 1 (the last
candidate, 255, is always skipped because one class is empty there). -/
theorem otsu_scan_maxVal_le (mu scale : ℚ) (h : Nat → Nat)
    (hmass : (∑ i ∈ Finset.range 256, (h i : ℚ)) * scale = 0
      ∨ (∑ i ∈ Finset.range 256, (h i : ℚ)) * scale = 1) :
    ((List.range 256).foldl (otsuStep mu scale h) ⟨0, 0, 0, 0⟩).maxVal ≤ 254 := by
  rw [show (256 : Nat) = 255 + 1 from rfl, List.range_succ, List.foldl_append,
    List.foldl_cons, List.foldl_nil]
  have hq1 : (((List.range 255).foldl (otsuStep mu scale h) ⟨0, 0, 0, 0⟩)).q1
      = (∑ i ∈ Finset.range 255, (h i : ℚ)) * scale := by
    rw [foldl_otsuStep_q1]
    ring
  have hA : (((List.range 255).foldl (otsuStep mu scale h) ⟨0, 0, 0, 0⟩)).maxVal
      ≤ 254 := by
    refine foldl_otsuStep_maxVal_le mu scale h (List.range 255) _ ?_ (by simp)
    intro j hj
    have := List.mem_range.mp hj
    omega
  have hstep := Finset.sum_range_succ (fun i => (h i : ℚ)) 255
  norm_num at hstep
  have hmass2 : (∑ i ∈ Finset.range 255, (h i : ℚ)) * scale + (h 255 : ℚ) * scale = 0
      ∨ (∑ i ∈ Finset.range 255, (h i : ℚ)) * scale + (h 255 : ℚ) * scale = 1 := by
    rcases hmass with hm | hm
    · left
      rw [← hm, hstep]
      ring
    · right
      rw [← hm, hstep]
      ring
  rw [otsuStep_skip mu scale h _ 255 ?_]
  · exact hA
  · rw [hq1]
    rcases hmass2 with hm | hm
    · exact Or.inl (le_of_eq hm)
    · refine Or.inr ?_
      rw [hm]
      norm_num

/-- Summing the histogram over all levels below `n` counts every pixel
once, provided all pixels are below `n`. -/
theorem sum_hist_eq_length (n : Nat) :
    ∀ l : List Nat, (∀ p ∈ l, p < n) →
      ∑ v ∈ Finset.range n, hist l v = l.length
  | [], _ => by simp [hist]
  | p :: l, hl => by
    have hrec := sum_hist_eq_length n l fun q hq => hl q (List.mem_cons_of_mem p hq)
    simp only [hist, Finset.sum_add_distrib, hrec, Finset.sum_ite_eq,
      Finset.mem_range, List.length_cons]
    rw [if_pos (hl p (List.mem_cons_self p l))]
    omega

/-- The Otsu threshold of an image of 8-bit pixels is at most 254: the
scan never selects the last candidate. -/
theorem otsuThreshold_le_254 (img : Image) (hpx : ∀ p ∈ img.flatten, p < 256) :
    otsuThreshold img ≤ 254 := by
  simp only [otsuThreshold]
  refine otsu_scan_maxVal_le _ _ _ ?_
  have hsum : (∑ i ∈ Finset.range 256, (hist img.flatten i : ℚ))
      = (img.flatten.length : ℚ) := by
    rw [← Nat.cast_sum]
    exact_mod_cast congrArg (Nat.cast : Nat → ℚ)
      (sum_hist_eq_length 256 img.flatten hpx)
  rw [hsum]
  rcases Nat.eq_zero_or_pos img.flatten.length with h0 | hpos
  · left
    rw [h0]
    norm_num
  · right
    have hne : (img.flatten.length : ℚ) ≠ 0 := Nat.cast_ne_zero.mpr (by omega)
    rw [mul_one_div, div_self hne]

/-- C5: the Otsu binary threshold is idempotent on its own output: an
image whose pixels are all 0 or 255 is returned identically, because the
selected threshold is always at most 254 and a binary threshold at such a
cut maps 0 to 0 and 255 to 255. -/
theorem otsu_threshold_idempotent_on_binary (img : Image)
    (hb : ∀ p ∈ img.flatten, p = 0 ∨ p = 255) :
    cvThresholdBinaryOtsu img = img := by
  have h254 : otsuThreshold img ≤ 254 := otsuThreshold_le_254 img (by
    intro p hp
    rcases hb p hp with rfl | rfl <;> omega)
  simp only [cvThresholdBinaryOtsu]
  refine list_map_eq_self _ img ?_
  intro row hrow
  refine list_map_eq_self _ row ?_
  intro p hp
  rcases hb p (List.mem_flatten.mpr ⟨row, hrow, hp⟩) with rfl | rfl
  · simp
  · rw [if_pos (by omega)]

/-- Witness for C5 on a concrete already-binary image. -/
theorem otsu_threshold_idempotent_on_binary_witness :
    cvThresholdBinaryOtsu [[0, 255], [255, 0]] = [[0, 255], [255, 0]] :=
  otsu_threshold_idempotent_on_binary [[0, 255], [255, 0]] (by decide)

/-- C4: for a readable grayscale image, `preprocess_image` succeeds and
returns an image of the same dimensions as the loaded input, each of
whose pixels is either 0 or 255. -/
theorem preprocess_image_binary_same_dims (imread : String → Option Image)
    (path : String) (im : Image) (hre : imread path = some im)
    (_hrect : Rectangular im) :
    ∃ out, preprocess_image imread path = Except.ok out ∧
      out.length = im.length ∧ (∀ row ∈ out, row.length = width im) ∧
      ∀ row ∈ out, ∀ p ∈ row, p = 0 ∨ p = 255 := by
  refine ⟨cvThresholdBinaryOtsu (gaussianBlur5 im), ?_, ?_, ?_, ?_⟩
  · unfold preprocess_image
    rw [hre]
  · simp [cvThresholdBinaryOtsu, gaussianBlur5]
  · intro row hrow
    simp only [cvThresholdBinaryOtsu, List.mem_map] at hrow
    obtain ⟨r, hr, rfl⟩ := hrow
    simp only [gaussianBlur5, List.mem_map] at hr
    obtain ⟨i, _, rfl⟩ := hr
    simp
  · intro row hrow p hp
    simp only [cvThresholdBinaryOtsu, List.mem_map] at hrow
    obtain ⟨r, _, rfl⟩ := hrow
    simp only [List.mem_map] at hp
    obtain ⟨q, _, rfl⟩ := hp
    split_ifs
    · right
      rfl
    · left
      rfl

/-- Witness for C4 on a concrete readable 2×2 image. -/
theorem preprocess_image_binary_same_dims_witness :
    ∃ out, preprocess_image (fun _ => some [[0, 255], [10, 200]]) "w.jpg"
        = Except.ok out ∧
      out.length = ([[0, 255], [10, 200]] : Image).length ∧
      (∀ row ∈ out, row.length = width [[0, 255], [10, 200]]) ∧
      ∀ row ∈ out, ∀ p ∈ row, p = 0 ∨ p = 255 :=
  preprocess_image_binary_same_dims (fun _ => some [[0, 255], [10, 200]])
    "w.jpg" [[0, 255], [10, 200]] rfl (by unfold Rectangular; decide)
